import Mathlib

/-!
Verification of the void-ship crate (src/lib.rs): a shallow embedding of the
/proc/self/maps scanner and the vdso/vvar unmap/guard orchestration, with
theorems settling the frozen claims about the crate's specification.

Machine integers (`usize`) are modelled as `Nat` reduced modulo `2 ^ 64`
(release-build wrapping semantics); the byte stream read from the file
descriptor is a `List Nat` of byte values; syscalls issued by the
orchestration are recorded as an explicit trace, with the host OS's responses
supplied as oracle functions.
-/

namespace VoidShip

set_option maxRecDepth 200000

/-- Error type of lib.rs lines 7-12.  The payload of `parseIntError`
(`core::num::ParseIntError`) is omitted: no code path in the crate ever
constructs this variant (the `From` impl at lines 14-18 is its only source
and is never invoked). -/
inductive Error where
  | ioError : String → Int → Error
  | invalidFormat : String → Error
  | parseIntError : Error
deriving DecidableEq, Repr

/-- A discovered mapping: `(address, size)`, the model of the
`(*mut libc::c_void, libc::size_t)` pairs of lib.rs. -/
abbrev Region := Nat × Nat

/-- The modulus of `usize` arithmetic on the 64-bit targets the crate runs on. -/
def USIZE : Nat := 2 ^ 64

/-- The match arms of lib.rs lines 154-159: the value of one hex digit, or
`none` for any byte outside `0-9`, `a-f`, `A-F`. -/
def hexVal (b : Nat) : Option Nat :=
  if 48 ≤ b ∧ b ≤ 57 then some (b - 48)
  else if 97 ≤ b ∧ b ≤ 102 then some (10 + (b - 97))
  else if 65 ≤ b ∧ b ≤ 70 then some (10 + (b - 65))
  else none

/-- The accumulator loop of `parse_hex_address` (lib.rs lines 151-160):
`num = num * 16 + digit` in wrapping `usize` arithmetic. -/
def parseHexLoop (num : Nat) : List Nat → Except Error Nat
  | [] => .ok num
  | b :: rest =>
    match hexVal b with
    | some d => parseHexLoop ((num * 16 + d) % USIZE) rest
    | none => .error (.invalidFormat ("Invalid hexadecimal number"))

/-- lib.rs lines 150-162. -/
def parse_hex_address (addr : List Nat) : Except Error Nat :=
  parseHexLoop 0 addr

/-- Wrapping `usize` subtraction, the semantics of `end - start` at
lib.rs line 147 in a release build. -/
def wrapSub (a b : Nat) : Nat := (USIZE + a - b) % USIZE

/-- lib.rs lines 140-148: parse both addresses and return
`(start, end - start)`.  There is no `end > start` check in the source. -/
def parse_addresses (start_addr end_addr : List Nat) : Except Error Region :=
  match parse_hex_address start_addr with
  | .error e => .error e
  | .ok s =>
    match parse_hex_address end_addr with
    | .error e => .error e
    | .ok e => .ok (s, wrapSub e s)

/-- The bytes of the literal `"[vdso]"`. -/
def vdsoLabel : List Nat := [91, 118, 100, 115, 111, 93]

/-- The bytes of the literal `"[vvar]"`. -/
def vvarLabel : List Nat := [91, 118, 118, 97, 114, 93]

/-- `line.windows(6).any(|window| window == pat)` of lib.rs lines 121 and
123: does `pat` occur as a contiguous block anywhere in the list? -/
def hasWindow (pat : List Nat) : List Nat → Bool
  | [] => false
  | b :: rest => pat.isPrefixOf (b :: rest) || hasWindow pat rest

/-- The mutable state of the scan loop of `find_mapping_addresses`
(lib.rs lines 104-110): the 1024-byte scratch `line` buffer, the write
index into it, and the two optional discovered regions.  The scratch buffer
is never cleared between lines; only `lineIdx` is reset. -/
structure ScanState where
  line : List Nat
  lineIdx : Nat
  vdso : Option Region
  vvar : Option Region
deriving DecidableEq, Repr

/-- The state on entry to the loop: `let mut line = [0u8; 1024]`. -/
def scanInit : ScanState := ⟨List.replicate 1024 0, 0, none, none⟩

/-- The body of the `for &byte in ...` loop of lib.rs lines 119-133: on a
line feed, classify the whole scratch buffer by substring search and parse
the fixed slices `line[..12]` and `line[13..25]`; on any other byte, store
it if the index is in bounds. -/
def scanStep (st : ScanState) (byte : Nat) : Except Error ScanState :=
  if byte = 10 then
    if hasWindow vdsoLabel st.line then
      match parse_addresses (st.line.take 12) ((st.line.drop 13).take 12) with
      | .error e => .error e
      | .ok r => .ok { st with vdso := some r, lineIdx := 0 }
    else if hasWindow vvarLabel st.line then
      match parse_addresses (st.line.take 12) ((st.line.drop 13).take 12) with
      | .error e => .error e
      | .ok r => .ok { st with vvar := some r, lineIdx := 0 }
    else
      .ok { st with lineIdx := 0 }
  else
    if st.lineIdx < st.line.length then
      .ok { st with line := st.line.set st.lineIdx byte, lineIdx := st.lineIdx + 1 }
    else
      .ok st

/-- The scan loop over the byte stream delivered by `read` (lib.rs lines
112-134).  The chunked reads into the 4096-byte buffer deliver the stream
bytes in order, so the loop is modelled directly on the whole stream. -/
def scanBytes (st : ScanState) : List Nat → Except Error ScanState
  | [] => .ok st
  | b :: rest =>
    match scanStep st b with
    | .error e => .error e
    | .ok st2 => scanBytes st2 rest

deriving instance DecidableEq for Except

/-- The observable outcome of one scan: the returned value and whether the
`close(fd)` at lib.rs line 136 was reached. -/
structure ScanOutcome where
  result : Except Error (Option Region × Option Region)
  fdClosed : Bool
deriving DecidableEq, Repr

/-- lib.rs lines 86-138.  The returned pair is `Ok((vvar, vdso))` exactly as
at line 137.  The `close(fd)` at line 136 runs only when the loop finishes;
the `?` at lines 122/124 returns early on a parse failure and skips it,
hence `fdClosed := false` on the error path. -/
def find_mapping_addresses (stream : List Nat) : ScanOutcome :=
  match scanBytes scanInit stream with
  | .ok st => ⟨.ok (st.vvar, st.vdso), true⟩
  | .error e => ⟨.error e, false⟩

/-- A syscall attempted by the orchestration layer, with its arguments. -/
inductive Syscall where
  | munmap : Nat → Nat → Syscall
  | mmap : Nat → Nat → Syscall
deriving DecidableEq, Repr

/-- lib.rs lines 44-51, with the kernel's `munmap` return value supplied by
the oracle `os_munmap`. -/
def unmap_region (os_munmap : Nat → Nat → Int) (address size : Nat) :
    Except Error Unit :=
  let errno := os_munmap address size
  if errno = 0 then .ok () else .error (.ioError ("munmap") errno)

/-- lib.rs lines 165-182, with the oracle `os_mmap` returning whether the
fixed-address `mmap` succeeded; on `MAP_FAILED` the source wraps
`result as c_int`, i.e. `-1`. -/
def allocate_guard_page (os_mmap : Nat → Nat → Bool) (address size : Nat) :
    Except Error Unit :=
  if os_mmap address size then .ok () else .error (.ioError ("mmap") (-1))

/-- lib.rs lines 186-198.  The let-else destructures the pair returned by
`find_mapping_addresses`; that pair is `(vvar, vdso)` (line 137), so the
binders named `vdso_address`/`vdso_size` in the source actually receive the
vvar region and vice versa.  The source's binder names are kept.  The second
component of the result is the trace of syscalls attempted, in order. -/
def remove_timer_mappings (os_munmap : Nat → Nat → Int) (stream : List Nat) :
    Except Error Unit × List Syscall :=
  match (find_mapping_addresses stream).result with
  | .error e => (.error e, [])
  | .ok (some (vdso_address, vdso_size), some (vvar_address, vvar_size)) =>
    match unmap_region os_munmap vdso_address vdso_size with
    | .error e => (.error e, [.munmap vdso_address vdso_size])
    | .ok _ =>
      match unmap_region os_munmap vvar_address vvar_size with
      | .error e =>
        (.error e, [.munmap vdso_address vdso_size, .munmap vvar_address vvar_size])
      | .ok _ =>
        (.ok (), [.munmap vdso_address vdso_size, .munmap vvar_address vvar_size])
  | .ok _ => (.error (.invalidFormat ("Could not find vdso or vvar mappings")), [])

/-- lib.rs lines 202-218: the same discovery and unmap sequence as
`remove_timer_mappings`, followed by the two guard-page allocations. -/
def replace_timer_mappings (os_munmap : Nat → Nat → Int)
    (os_mmap : Nat → Nat → Bool) (stream : List Nat) :
    Except Error Unit × List Syscall :=
  match (find_mapping_addresses stream).result with
  | .error e => (.error e, [])
  | .ok (some (vdso_address, vdso_size), some (vvar_address, vvar_size)) =>
    match unmap_region os_munmap vdso_address vdso_size with
    | .error e => (.error e, [.munmap vdso_address vdso_size])
    | .ok _ =>
      match unmap_region os_munmap vvar_address vvar_size with
      | .error e =>
        (.error e, [.munmap vdso_address vdso_size, .munmap vvar_address vvar_size])
      | .ok _ =>
        match allocate_guard_page os_mmap vdso_address vdso_size with
        | .error e =>
          (.error e, [.munmap vdso_address vdso_size, .munmap vvar_address vvar_size,
                      .mmap vdso_address vdso_size])
        | .ok _ =>
          match allocate_guard_page os_mmap vvar_address vvar_size with
          | .error e =>
            (.error e, [.munmap vdso_address vdso_size, .munmap vvar_address vvar_size,
                        .mmap vdso_address vdso_size, .mmap vvar_address vvar_size])
          | .ok _ =>
            (.ok (), [.munmap vdso_address vdso_size, .munmap vvar_address vvar_size,
                      .mmap vdso_address vdso_size, .mmap vvar_address vvar_size])
  | .ok _ => (.error (.invalidFormat ("Could not find vdso or vvar mappings")), [])

/-- An observable classification event of the scan loop: one per line whose
scratch buffer matched a label and whose addresses parsed. -/
inductive Event where
  | vdsoSet : Region → Event
  | vvarSet : Region → Event
deriving DecidableEq, Repr

/-- `scanStep` instrumented with the classification event it produces. -/
def scanStepEv (st : ScanState) (byte : Nat) :
    Except Error (ScanState × List Event) :=
  if byte = 10 then
    if hasWindow vdsoLabel st.line then
      match parse_addresses (st.line.take 12) ((st.line.drop 13).take 12) with
      | .error e => .error e
      | .ok r => .ok ({ st with vdso := some r, lineIdx := 0 }, [.vdsoSet r])
    else if hasWindow vvarLabel st.line then
      match parse_addresses (st.line.take 12) ((st.line.drop 13).take 12) with
      | .error e => .error e
      | .ok r => .ok ({ st with vvar := some r, lineIdx := 0 }, [.vvarSet r])
    else
      .ok ({ st with lineIdx := 0 }, [])
  else
    if st.lineIdx < st.line.length then
      .ok ({ st with line := st.line.set st.lineIdx byte, lineIdx := st.lineIdx + 1 }, [])
    else
      .ok (st, [])

/-- `scanBytes` instrumented with the ordered list of classification events. -/
def scanBytesEv (st : ScanState) : List Nat → Except Error (ScanState × List Event)
  | [] => .ok (st, [])
  | b :: rest =>
    match scanStepEv st b with
    | .error e => .error e
    | .ok (st2, evs1) =>
      match scanBytesEv st2 rest with
      | .error e => .error e
      | .ok (st3, evs2) => .ok (st3, evs1 ++ evs2)

/-- How one event updates the reported vdso region: a later `vdsoSet`
overwrites an earlier one. -/
def updVdso (vd : Option Region) (e : Event) : Option Region :=
  match e with
  | .vdsoSet r => some r
  | .vvarSet _ => vd

/-- How one event updates the reported vvar region. -/
def updVvar (vv : Option Region) (e : Event) : Option Region :=
  match e with
  | .vdsoSet _ => vv
  | .vvarSet r => some r

/-- ASCII text as a byte list (all characters used are 7-bit). -/
def asciiBytes (s : String) : List Nat := s.data.map Char.toNat

/-- A listing whose only line is a vvar line with a non-hex character (the
letter `l`) inside the first 12 bytes, triggering a parse failure partway
through the stream. -/
def c3Stream : List Nat :=
  asciiBytes ("7ffle000-7fff0000 r--p 00000000 00:00 0 [vvar]\n")

/-- A listing whose vvar line has `start == end` (a zero-size range) and
whose vdso line is ordinary. -/
def c6Stream : List Nat :=
  asciiBytes ("00007ffd1000-00007ffd1000 r--p 00000000 00:00 0 [vvar]\n00007ffd2000-00007ffd3000 r-xp 00000000 00:00 0 [vdso]\n")

/-- A listing with both labels present and distinct address ranges:
vdso at 0x7ffd3000..0x7ffd4000, vvar at 0x7ffd1000..0x7ffd2000. -/
def c7Stream : List Nat :=
  asciiBytes ("00007ffd3000-00007ffd4000 r-xp 00000000 00:00 0 [vdso]\n00007ffd1000-00007ffd2000 r--p 00000000 00:00 0 [vvar]\n")

/-- A listing containing two `[vdso]` lines (addresses 0x7ffd3000 and
0x7ffd5000) around one `[vvar]` line. -/
def c8Stream : List Nat :=
  asciiBytes ("00007ffd3000-00007ffd4000 r-xp 00000000 00:00 0 [vdso]\n00007ffd1000-00007ffd2000 r--p 00000000 00:00 0 [vvar]\n00007ffd5000-00007ffd6000 r-xp 00000000 00:00 0 [vdso]\n")

/-- The final state of the instrumented scan of `c8Stream`. -/
def c8State : ScanState :=
  match scanBytesEv scanInit c8Stream with
  | .ok (st, _) => st
  | .error _ => scanInit

/-- The event list of the instrumented scan of `c8Stream`. -/
def c8Events : List Event :=
  match scanBytesEv scanInit c8Stream with
  | .ok (_, evs) => evs
  | .error _ => []

/-- A vdso line with no trailing newline, arriving at end of stream. -/
def c10Tail : List Nat :=
  asciiBytes ("00007ffd3000-00007ffd4000 r-xp 00000000 00:00 0 [vdso]")

/-- A listing containing only a vdso line, no vvar line. -/
def c2WitStream : List Nat :=
  asciiBytes ("00007ffd3000-00007ffd4000 r-xp 00000000 00:00 0 [vdso]\n")

/-- A listing whose text contains `[vvar]` nowhere: a 54-byte vdso line,
then a 54-byte label-free line ending in `"xxxvar]"` (bytes 50-53 are
`"var]"`), then a 50-byte line ending in `"[v"` (bytes 48-49).  At the
third line's line feed the never-cleared scratch buffer holds the third
line's 50 bytes followed by the second line's residue `"var]"`, assembling
`"[vvar]"` at offsets 48-53 even though no line (and not the flat text)
contains that label. -/
def c2CexStream : List Nat :=
  asciiBytes ("00007ffd1000-00007ffd2000 r-xp 00000000 00:00 0 [vdso]\n00007ffd5000-00007ffd6000 r--p 00000000 00:00 0xxxvar]\n00007ffd3000-00007ffd4000 r--p 00000000 00:00 0 [v\n")

/-- First of the two lines containing `[vdso]` (0x7ffd3000..0x7ffd4000). -/
def c8CexLineA : List Nat :=
  asciiBytes ("00007ffd3000-00007ffd4000 r-xp 00000000 00:00 0 [vdso]")

/-- Second, last line containing `[vdso]` (0x7ffd5000..0x7ffd6000). -/
def c8CexLineB : List Nat :=
  asciiBytes ("00007ffd5000-00007ffd6000 r-xp 00000000 00:00 0 [vdso]")

/-- The trailing two-byte label-free line `"ab"`. -/
def c8CexShort : List Nat := [97, 98]

/-- A listing whose only lines containing `[vdso]` are the first two,
followed by the label-free line `"ab"`. -/
def c8CexStream : List Nat :=
  c8CexLineA ++ 10 :: c8CexLineB ++ 10 :: c8CexShort ++ [10]

theorem scanBytes_append (a b : List Nat) (st : ScanState) :
    scanBytes st (a ++ b) =
      match scanBytes st a with
      | .error e => .error e
      | .ok st2 => scanBytes st2 b := by
  induction a generalizing st with
  | nil => rfl
  | cons x xs ih =>
    simp only [List.cons_append, scanBytes]
    cases scanStep st x with
    | error e => rfl
    | ok st2 => exact ih st2

theorem scanBytes_append_ok (a b : List Nat) (st st1 : ScanState)
    (h : scanBytes st a = .ok st1) :
    scanBytes st (a ++ b) = scanBytes st1 b := by
  rw [scanBytes_append, h]

theorem scanBytes_append_err (a b : List Nat) (st : ScanState) (e : Error)
    (h : scanBytes st a = .error e) :
    scanBytes st (a ++ b) = .error e := by
  rw [scanBytes_append, h]

theorem scanBytes_no_newline (l : List Nat) (st : ScanState) (h : ∀ b ∈ l, b ≠ 10) :
    ∃ st2, scanBytes st l = .ok st2 ∧ st2.vdso = st.vdso ∧ st2.vvar = st.vvar := by
  induction l generalizing st with
  | nil => exact ⟨st, rfl, rfl, rfl⟩
  | cons b rest ih =>
    have hb : b ≠ 10 := h b (List.mem_cons_self b rest)
    have hrest : ∀ x ∈ rest, x ≠ 10 := fun x hx => h x (List.mem_cons_of_mem b hx)
    have hstep : ∃ st1, scanStep st b = .ok st1 ∧ st1.vdso = st.vdso ∧ st1.vvar = st.vvar := by
      unfold scanStep
      rw [if_neg hb]
      by_cases hidx : st.lineIdx < st.line.length
      · refine ⟨{ st with line := st.line.set st.lineIdx b, lineIdx := st.lineIdx + 1 },
          ?_, rfl, rfl⟩
        rw [if_pos hidx]
      · exact ⟨st, by rw [if_neg hidx], rfl, rfl⟩
    obtain ⟨st1, hs1, hv1, hw1⟩ := hstep
    obtain ⟨st2, hs2, hv2, hw2⟩ := ih st1 hrest
    refine ⟨st2, ?_, hv2.trans hv1, hw2.trans hw1⟩
    simp only [scanBytes]
    rw [hs1]
    exact hs2

theorem parseHexLoop_lt (l : List Nat) (num : Nat) (hn : num < USIZE) (v : Nat)
    (h : parseHexLoop num l = .ok v) : v < USIZE := by
  induction l generalizing num with
  | nil =>
    simp only [parseHexLoop] at h
    injection h with h2
    omega
  | cons b rest ih =>
    simp only [parseHexLoop] at h
    cases hhex : hexVal b with
    | none => rw [hhex] at h; cases h
    | some d =>
      rw [hhex] at h
      exact ih ((num * 16 + d) % USIZE) (Nat.mod_lt _ (by norm_num [USIZE])) h

theorem parse_hex_lt (l : List Nat) (v : Nat) (h : parse_hex_address l = .ok v) :
    v < USIZE :=
  parseHexLoop_lt l 0 (by norm_num [USIZE]) v h

theorem wrapSub_self (a : Nat) : wrapSub a a = 0 := by
  unfold wrapSub
  rw [Nat.add_sub_cancel, Nat.mod_self]

theorem wrapSub_eq (a b : Nat) (hle : b ≤ a) (hlt : a < USIZE) :
    wrapSub a b = a - b := by
  unfold wrapSub
  have h1 : USIZE + a - b = USIZE + (a - b) := by omega
  rw [h1, Nat.add_mod_left, Nat.mod_eq_of_lt (by omega)]

theorem scanStep_eq_ev (st : ScanState) (b : Nat) :
    scanStep st b = Except.map Prod.fst (scanStepEv st b) := by
  unfold scanStep scanStepEv
  by_cases hb : b = 10
  · rw [if_pos hb, if_pos hb]
    by_cases h1 : hasWindow vdsoLabel st.line
    · rw [if_pos h1, if_pos h1]
      cases hp : parse_addresses (st.line.take 12) ((st.line.drop 13).take 12) with
      | error e => simp [hp, Except.map]
      | ok r => simp [hp, Except.map]
    · rw [if_neg h1, if_neg h1]
      by_cases h2 : hasWindow vvarLabel st.line
      · rw [if_pos h2, if_pos h2]
        cases hp : parse_addresses (st.line.take 12) ((st.line.drop 13).take 12) with
        | error e => simp [hp, Except.map]
        | ok r => simp [hp, Except.map]
      · rw [if_neg h2, if_neg h2]; simp [Except.map]
  · rw [if_neg hb, if_neg hb]
    by_cases hi : st.lineIdx < st.line.length
    · rw [if_pos hi, if_pos hi]; simp [Except.map]
    · rw [if_neg hi, if_neg hi]; simp [Except.map]

theorem scanBytes_eq_ev (bs : List Nat) (st : ScanState) :
    scanBytes st bs = Except.map Prod.fst (scanBytesEv st bs) := by
  induction bs generalizing st with
  | nil => rfl
  | cons b rest ih =>
    simp only [scanBytes, scanBytesEv]
    rw [scanStep_eq_ev]
    cases hs : scanStepEv st b with
    | error e => simp [Except.map]
    | ok p =>
      obtain ⟨st2, evs⟩ := p
      simp only [Except.map]
      rw [ih st2]
      cases hr : scanBytesEv st2 rest with
      | error e => simp [Except.map]
      | ok q => obtain ⟨st3, evs2⟩ := q; simp [Except.map]

theorem scanStepEv_fold (st : ScanState) (b : Nat) (st2 : ScanState)
    (evs : List Event) (h : scanStepEv st b = .ok (st2, evs)) :
    st2.vdso = evs.foldl updVdso st.vdso ∧ st2.vvar = evs.foldl updVvar st.vvar := by
  unfold scanStepEv at h
  by_cases hb : b = 10
  · rw [if_pos hb] at h
    by_cases h1 : hasWindow vdsoLabel st.line
    · rw [if_pos h1] at h
      cases hp : parse_addresses (st.line.take 12) ((st.line.drop 13).take 12) with
      | error e => rw [hp] at h; cases h
      | ok r =>
        rw [hp] at h
        injection h with h2
        injection h2 with h3 h4
        subst h3; subst h4
        exact ⟨rfl, rfl⟩
    · rw [if_neg h1] at h
      by_cases h2 : hasWindow vvarLabel st.line
      · rw [if_pos h2] at h
        cases hp : parse_addresses (st.line.take 12) ((st.line.drop 13).take 12) with
        | error e => rw [hp] at h; cases h
        | ok r =>
          rw [hp] at h
          injection h with h3
          injection h3 with h4 h5
          subst h4; subst h5
          exact ⟨rfl, rfl⟩
      · rw [if_neg h2] at h
        injection h with h3
        injection h3 with h4 h5
        subst h4; subst h5
        exact ⟨rfl, rfl⟩
  · rw [if_neg hb] at h
    by_cases hi : st.lineIdx < st.line.length
    · rw [if_pos hi] at h
      injection h with h3
      injection h3 with h4 h5
      subst h4; subst h5
      exact ⟨rfl, rfl⟩
    · rw [if_neg hi] at h
      injection h with h3
      injection h3 with h4 h5
      subst h4; subst h5
      exact ⟨rfl, rfl⟩

theorem scanBytesEv_fold (bs : List Nat) (st st2 : ScanState) (evs : List Event)
    (h : scanBytesEv st bs = .ok (st2, evs)) :
    st2.vdso = evs.foldl updVdso st.vdso ∧ st2.vvar = evs.foldl updVvar st.vvar := by
  induction bs generalizing st evs with
  | nil =>
    simp only [scanBytesEv] at h
    injection h with h2
    injection h2 with h3 h4
    subst h3; subst h4
    exact ⟨rfl, rfl⟩
  | cons b rest ih =>
    simp only [scanBytesEv] at h
    cases hs : scanStepEv st b with
    | error e => simp only [hs] at h; exact Except.noConfusion h
    | ok p =>
      obtain ⟨stm, evs1⟩ := p
      simp only [hs] at h
      cases hr : scanBytesEv stm rest with
      | error e => simp only [hr] at h; exact Except.noConfusion h
      | ok q =>
        obtain ⟨st3, evs2⟩ := q
        simp only [hr] at h
        injection h with h2
        injection h2 with h3 h4
        subst h3; subst h4
        have hstep := scanStepEv_fold st b stm evs1 hs
        have hrec := ih stm evs2 hr
        simp only [List.foldl_append]
        rw [← hstep.1, ← hstep.2]
        exact hrec

/-- C8 counterexample: on `c8CexStream`, exactly two lines (`c8CexLineA`
and `c8CexLineB`) contain `[vdso]` and the trailing line `"ab"` contains no
label, yet the region the scan reports for vdso is NOT the parse of the
last matching line `c8CexLineB` (which parses to `(0x7ffd5000, 4096)`): the
never-cleared scratch buffer still holds `"[vdso]"` from line B at the
`"ab"` line's line feed, so that label-free line is classified too and
overwrites the region with residue garbage `0xab007ffd5000` (the bytes
`"ab"` over stale digits of line B).  The frozen claim's "the region
reported is the one parsed from the last matching line" is therefore false
on the code. -/
theorem c8_counterexample :
    hasWindow vdsoLabel c8CexLineA = true ∧
    hasWindow vdsoLabel c8CexLineB = true ∧
    hasWindow vdsoLabel c8CexShort = false ∧
    parse_addresses (asciiBytes ("00007ffd5000")) (asciiBytes ("00007ffd6000")) =
      .ok (2147307520, 4096) ∧
    (find_mapping_addresses c8CexStream).result =
      .ok (none, some (188018635657216, 18446556057221206016)) ∧
    (188018635657216, 18446556057221206016) ≠ ((2147307520, 4096) : Region) := by
  decide

/-- C8 amended: overwriting semantics hold at the level of the scan's
classification events, not of the lines textually containing a label.
Whenever the scan of a listing succeeds, the reported vdso and vvar regions
are exactly the result of folding the ordered classification events with
overwriting updates — each later event for a label replaces the earlier
one, starting from `none` — and a listing with several events for the same
label is never rejected as an error (the scan returned `ok` by hypothesis
with all duplicate events in its trace).  A classification event fires for
every line whose 1024-byte scratch buffer contains the label, which
includes lines that only inherit the label from residue of earlier longer
lines; only when no residue interferes does "event" coincide with
"line containing the label". -/
theorem c8_last_match_wins (bs : List Nat) (st2 : ScanState) (evs : List Event)
    (h : scanBytesEv scanInit bs = .ok (st2, evs)) :
    scanBytes scanInit bs = .ok st2 ∧
    st2.vdso = evs.foldl updVdso none ∧
    st2.vvar = evs.foldl updVvar none := by
  have h1 := scanBytesEv_fold bs scanInit st2 evs h
  refine ⟨?_, h1.1, h1.2⟩
  rw [scanBytes_eq_ev, h]
  rfl

/-- Witness for C8: on `c8Stream`, which contains two `[vdso]` lines around
a `[vvar]` line, the instrumented scan succeeds with three events and the
reported regions are the overwriting folds of those events — in particular
the vdso region is the one of the second, later `[vdso]` line. -/
theorem c8_witness :
    scanBytesEv scanInit c8Stream = .ok (c8State, c8Events) ∧
    c8Events.foldl updVdso none = some (2147307520, 4096) ∧
    (c8State.vdso = c8Events.foldl updVdso none ∧
     c8State.vvar = c8Events.foldl updVvar none) :=
  ⟨by decide, by decide,
   (c8_last_match_wins c8Stream c8State c8Events (by decide)).2⟩

/-- C10: a final line not terminated by a line feed contributes nothing.
Appending any newline-free tail to a stream leaves the whole outcome of the
scan unchanged — classification and parsing happen only when a line-feed
byte is consumed, so a `[vdso]` or `[vvar]` line at end of stream without a
trailing newline yields no mapping. -/
theorem c10_trailing_line_ignored (bs tail : List Nat)
    (h : ∀ b ∈ tail, b ≠ 10) :
    find_mapping_addresses (bs ++ tail) = find_mapping_addresses bs := by
  unfold find_mapping_addresses
  cases hs : scanBytes scanInit bs with
  | error e => rw [scanBytes_append_err bs tail scanInit e hs]
  | ok st =>
    obtain ⟨st2, h2, hv, hw⟩ := scanBytes_no_newline tail st h
    rw [scanBytes_append_ok bs tail scanInit st hs, h2]
    show (⟨.ok (st2.vvar, st2.vdso), true⟩ : ScanOutcome) = ⟨.ok (st.vvar, st.vdso), true⟩
    rw [hv, hw]

/-- Witness for C10: a lone vdso line with no trailing newline is a
newline-free tail, and the scan of it returns exactly the scan of the empty
stream — no mapping at all. -/
theorem c10_witness :
    find_mapping_addresses ([] ++ c10Tail) = find_mapping_addresses [] ∧
    (find_mapping_addresses c10Tail).result = .ok (none, none) :=
  ⟨c10_trailing_line_ignored [] c10Tail (by decide), by decide⟩

/-- C9: the hexadecimal address parser applied to the empty byte sequence
succeeds and returns 0: the accumulator loop of `parse_hex_address`
(lib.rs lines 151-161) starts at 0 and performs no iteration, so an empty
address field is accepted as address zero rather than rejected. -/
theorem c9_empty_addr_parses_to_zero : parse_hex_address [] = .ok 0 := rfl

/-- C3: the code does NOT close the file descriptor on every exit path.  On
the listing `c3Stream`, whose `[vvar]` line has a non-hex byte in its
address field, the scan returns a parse failure through the early `?` return
at lib.rs line 124, skipping the `close(fd)` at line 136: `fdClosed` is
`false` on this exit path, contradicting the claim. -/
theorem c3_fd_not_closed_on_parse_failure :
    find_mapping_addresses c3Stream =
      ⟨.error (.invalidFormat ("Invalid hexadecimal number")), false⟩ := by decide

/-- C7: on `c7Stream` the vdso region is 0x7ffd3000 (2147299328) and the
vvar region is 0x7ffd1000 (2147291136), yet the first `munmap` attempted by
`remove_timer_mappings` targets the vvar region: `find_mapping_addresses`
returns `Ok((vvar, vdso))` (lib.rs line 137) while the caller destructures
the pair as `(vdso, vvar)` (lines 187-188), so the unmap order is vvar
first, and a failure of the first unmap (errno -7 here) is produced by the
vvar region, not the vdso region as the claim states. -/
theorem c7_vvar_unmapped_first :
    (find_mapping_addresses c7Stream).result =
      .ok (some (2147291136, 4096), some (2147299328, 4096)) ∧
    remove_timer_mappings (fun _ _ => 0) c7Stream =
      (.ok (), [.munmap 2147291136 4096, .munmap 2147299328 4096]) ∧
    remove_timer_mappings (fun a _ => if a = 2147291136 then -7 else 0) c7Stream =
      (.error (.ioError ("munmap") (-7)), [.munmap 2147291136 4096]) := by decide

/-- C6 counterexample: on `c6Stream` the vvar line has `start == end ==
0x7ffd1000`; `parse_addresses` performs no `end > start` check, the scan
succeeds with a zero-size vvar region, and `remove_timer_mappings` passes
that `size == 0` region to `munmap` — refuting the claim that such a region
can never reach the unmap call. -/
theorem c6_counterexample :
    (find_mapping_addresses c6Stream).result =
      .ok (some (2147291136, 0), some (2147295232, 4096)) ∧
    remove_timer_mappings (fun _ _ => 0) c6Stream =
      (.ok (), [.munmap 2147291136 0, .munmap 2147295232 4096]) := by decide

/-- C2 counterexample: the listing `c2CexStream` contains `[vvar]` nowhere
in its text (first conjunct: not even as a flat substring of the whole
stream, hence in no line), yet the scan "discovers" both regions — the
vvar label is assembled at a line feed from the current line's trailing
`"[v"` plus the residue `"var]"` of the previous longer line in the
never-cleared scratch buffer — and `remove_timer_mappings` /
`replace_timer_mappings` proceed to issue two `munmap` (and two `mmap`)
syscalls instead of failing with a format failure.  The frozen claim's
"label absent ⟹ format failure and no unmap/guard syscall attempted" is
therefore false on the code. -/
theorem c2_counterexample :
    hasWindow vvarLabel c2CexStream = false ∧
    (find_mapping_addresses c2CexStream).result =
      .ok (some (2147299328, 4096), some (2147291136, 4096)) ∧
    remove_timer_mappings (fun _ _ => 0) c2CexStream =
      (.ok (), [.munmap 2147299328 4096, .munmap 2147291136 4096]) ∧
    replace_timer_mappings (fun _ _ => 0) (fun _ _ => true) c2CexStream =
      (.ok (), [.munmap 2147299328 4096, .munmap 2147291136 4096,
                .mmap 2147299328 4096, .mmap 2147291136 4096]) := by
  decide

/-- C2 amended: the all-or-nothing gate is keyed to what the scan
discovers, not to the labels' textual presence in the listing.  For every
listing whose scan succeeds but discovers at most one of the two regions
(either optional component is `none`), both `remove_timer_mappings` and
`replace_timer_mappings` fail with the format failure
`InvalidFormat("Could not find vdso or vvar mappings")` and attempt no
`munmap` or `mmap` syscall at all (empty trace), for every behaviour of
the host OS oracles.  Because the scratch buffer is never cleared, a
textually absent label can still be "discovered" from residue (see
the counterexample); and when the scan itself fails, that parse error
propagates instead of this message, likewise with no syscall attempted. -/
theorem c2_missing_label_no_syscalls (os_munmap : Nat → Nat → Int)
    (os_mmap : Nat → Nat → Bool) (stream : List Nat) (vv vd : Option Region)
    (hscan : (find_mapping_addresses stream).result = .ok (vv, vd))
    (habsent : vv = none ∨ vd = none) :
    remove_timer_mappings os_munmap stream =
      (.error (.invalidFormat ("Could not find vdso or vvar mappings")), []) ∧
    replace_timer_mappings os_munmap os_mmap stream =
      (.error (.invalidFormat ("Could not find vdso or vvar mappings")), []) := by
  unfold remove_timer_mappings replace_timer_mappings
  rw [hscan]
  rcases habsent with h | h
  · subst h
    cases vd <;> exact ⟨rfl, rfl⟩
  · subst h
    cases vv <;> exact ⟨rfl, rfl⟩

/-- Witness for C2 at the concrete listing `c2WitStream`, which contains a
vdso line but no vvar line. -/
theorem c2_witness :
    remove_timer_mappings (fun _ _ => 0) c2WitStream =
      (.error (.invalidFormat ("Could not find vdso or vvar mappings")), []) ∧
    replace_timer_mappings (fun _ _ => 0) (fun _ _ => true) c2WitStream =
      (.error (.invalidFormat ("Could not find vdso or vvar mappings")), []) :=
  c2_missing_label_no_syscalls (fun _ _ => 0) (fun _ _ => true) c2WitStream
    none (some (2147299328, 4096)) (by decide) (Or.inl rfl)

/-- C6 amended: `parse_addresses` performs no `end > start` validation.  For
any two successfully parsed addresses it returns the region
`(start, wrapSub end start)` — `end - start` in wrapping usize arithmetic —
so a line with `start == end` yields a region of size 0 (and an inverted
range a wrapped-around size), which is then passed on to the unmap/guard
calls rather than rejected; when `start ≤ end` the size is exactly
`end - start`. -/
theorem c6_amended_no_size_check (s e : List Nat) (v w : Nat)
    (hp : parse_hex_address s = .ok v) (hq : parse_hex_address e = .ok w) :
    parse_addresses s e = .ok (v, wrapSub w v) ∧
    (w = v → wrapSub w v = 0) ∧
    (v ≤ w → wrapSub w v = w - v) := by
  refine ⟨?_, ?_, ?_⟩
  · unfold parse_addresses
    rw [hp, hq]
  · intro hvw
    rw [hvw]
    exact wrapSub_self v
  · intro hle
    exact wrapSub_eq w v hle (parse_hex_lt e w hq)

/-- Witness for C6 at concrete equal addresses 0x7ffd1000-0x7ffd1000: the
parse succeeds with a size-0 region. -/
theorem c6_witness :
    parse_addresses (asciiBytes ("00007ffd1000")) (asciiBytes ("00007ffd1000")) =
      .ok (2147291136, wrapSub 2147291136 2147291136) ∧
    (2147291136 = 2147291136 → wrapSub 2147291136 2147291136 = 0) ∧
    (2147291136 ≤ 2147291136 →
      wrapSub 2147291136 2147291136 = 2147291136 - 2147291136) :=
  c6_amended_no_size_check (asciiBytes ("00007ffd1000")) (asciiBytes ("00007ffd1000"))
    2147291136 2147291136 (by decide) (by decide)

end VoidShip
